import Mathlib

/-!
Shallow embedding of `ims/pca.py` (class `PCA_Model`), a thin wrapper around
an external PCA routine that stores scores and (descaled) loadings and renders
three chart kinds.  Numeric values are modelled as rationals; numpy arrays as
lists of rationals; charts as records of the data baked into the figure.
Fallible steps (array indexing, reshape, dataframe column lookup) return
`Option`.
-/

namespace ims

/-- Python `round(q)`: nearest integer, ties to even (banker's rounding). -/
def pyRound (q : ℚ) : ℤ :=
  let f : ℤ := ⌊q⌋
  let frac : ℚ := q - f
  if frac < 1/2 then f
  else if 1/2 < frac then f + 1
  else if f % 2 = 0 then f else f + 1

/-- Python `round(q, 1)`: round to one decimal place. -/
def pyRound1 (q : ℚ) : ℚ := (pyRound (q * 10) : ℚ) / 10

/-- Python/numpy index resolution on a container of length `n`:
nonnegative indices must be `< n`, negative indices count from the end. -/
def pyIdx (n : ℕ) (i : ℤ) : Option ℕ :=
  if 0 ≤ i ∧ i < (n : ℤ) then some i.toNat
  else if -(n : ℤ) ≤ i ∧ i < 0 then some (n - (-i).toNat)
  else none

/-- Indexing with Python/numpy semantics; `none` models an `IndexError`. -/
def npGet {α : Type} (l : List α) (i : ℤ) : Option α :=
  (pyIdx l.length i).bind (fun j => l.get? j)

/-- Python slice `l[1:-1]`: drop the first and the last element. -/
def pySlice1m1 {α : Type} (l : List α) : List α := (l.drop 1).dropLast

/-- Map a fallible function over a list, failing if any element fails
(the Python list comprehension raises on the first bad index). -/
def mapOpt {α β : Type} (f : α → Option β) : List α → Option (List β)
  | [] => some []
  | x :: xs =>
    match f x, mapOpt f xs with
    | some y, some ys => some (y :: ys)
    | _, _ => none

/-- `np.cumsum`: running sums, `cumsum [a, b, c] = [a, a+b, a+b+c]`. -/
def cumsum : List ℚ → List ℚ
  | [] => []
  | x :: xs => x :: (cumsum xs).map (fun s => x + s)

/-- `np.reshape(v, (r, d))`: `none` models the shape error raised when
`v.length ≠ r * d`. -/
def reshape2 (v : List ℚ) (r d : ℕ) : Option (List (List ℚ)) :=
  if v.length = r * d then
    some ((List.range r).map (fun i => (v.drop (i * d)).take d))
  else none

/-- Dot product of two feature vectors. -/
def dotQ (a b : List ℚ) : ℚ := (List.zipWith (· * ·) a b).sum

/-- Elementwise difference (numpy row broadcast). -/
def rowSub (a b : List ℚ) : List ℚ := List.zipWith (· - ·) a b

/-- Elementwise quotient (numpy row broadcast `components_ / weights`). -/
def rowDiv (a b : List ℚ) : List ℚ := List.zipWith (· / ·) a b

/-- One ion-mobility spectrum: the two coordinate axes and the axis label
used by `loadings_plot` (fields `ret_time`, `drift_time`,
`_drift_time_label` of the first spectrum of the dataset). -/
structure Spectrum where
  ret_time : List ℚ
  drift_time : List ℚ
  drift_time_label : String
deriving DecidableEq

/-- The dataset collaborator: per-sample identifiers and labels, and the
spectra giving the coordinate axes (`dataset[0]` is `spectra.head?`). -/
structure Dataset where
  name : String
  samples : List String
  labels : List String
  spectra : List Spectrum
deriving DecidableEq

/-- Modelled from the spec: the result of the external PCA routine
(`sklearn.decomposition.PCA(**kwargs).fit(X)`), whose code is not part of
this repository.  The spec states the delegated contract: component loading
vectors one per component with length = number of original features, and
explained-variance-ratio per component, a non-negative fraction summing
to ≤ 1 across all fitted components. -/
structure PCAFit where
  n_features : ℕ
  components_ : List (List ℚ)
  explained_variance_ratio_ : List ℚ
  mean_ : List ℚ
  components_width : ∀ c ∈ components_, c.length = n_features
  evr_length : explained_variance_ratio_.length = components_.length
  evr_nonneg : ∀ r ∈ explained_variance_ratio_, 0 ≤ r
  evr_sum_le_one : explained_variance_ratio_.sum ≤ 1

/-- `pca.n_components_`: the number of fitted components. -/
def PCAFit.n_components_ (f : PCAFit) : ℕ := f.components_.length

/-- `pca.transform(X)`: scores `(X - mean_) @ components_.T`. -/
def PCAFit.transform (f : PCAFit) (X : List (List ℚ)) : List (List ℚ) :=
  X.map (fun row => f.components_.map (fun c => dotQ (rowSub row f.mean_) c))

/-- The state of a `PCA_Model` instance after `__init__`. -/
structure PCA_Model where
  dataset : Dataset
  scaling_method : Option String
  X : List (List ℚ)
  weights : List ℚ
  pca : PCAFit
  pc : List (List ℚ)
  loadings : List (List ℚ)

/-- `PCA_Model.__init__`.  Modelled from the spec: `BaseModel` (absent from
`src/`) supplies the possibly-scaled feature matrix `X`, the per-feature
weight vector `weights`, and stores the dataset and the scaling-method key
unchanged; the fitted PCA result is the external collaborator `fit`.
The constructor then computes scores by `pca.transform(self.X)` and the
stored loadings: `pca.components_ / weights` elementwise when
`scaling_method is not None and scaling_method != 'standard'`, the raw
`pca.components_` otherwise. -/
def mkPCA_Model (dataset : Dataset) (scaling_method : Option String)
    (X : List (List ℚ)) (weights : List ℚ) (fit : PCAFit) : PCA_Model :=
  { dataset := dataset
    scaling_method := scaling_method
    X := X
    weights := weights
    pca := fit
    pc := fit.transform X
    loadings :=
      if scaling_method ≠ none ∧ scaling_method ≠ some "standard" then
        fit.components_.map (fun c => rowDiv c weights)
      else
        fit.components_ }

/-- The data baked into the figure returned by `scatter_plot`: the chosen
component pair, the rounded explained-variance percentages interpolated into
the axis labels, the grouping keys, and the per-point sample annotations
(empty when `label=False`). -/
structure ScatterChart where
  xPC : ℤ
  yPC : ℤ
  xPercent : ℚ
  yPercent : ℚ
  hue : String
  style : String
  pointLabels : List String
  legend : Bool
deriving DecidableEq

/-- `PCA_Model.scatter_plot(PC_x, PC_y, hue, style, label)`.  The figure
size is presentation-only and omitted.  The method computes the rounded
explained-variance percentages, builds the per-sample dataframe with
columns `PC 1 .. PC n`, `Sample`, `Label`, and plots column `PC {PC_x}`
against `PC {PC_y}`.  It fails (`none`) when the requested x/y/hue/style
column does not exist in the dataframe, or when the sample or label list
length does not match the number of score rows (pandas column assignment).
The pair's first component is the state the method leaves behind. -/
def scatter_plot (m : PCA_Model) (PC_x PC_y : ℤ) (hue style : String)
    (label : Bool) : PCA_Model × Option ScatterChart :=
  let n := m.pca.n_components_
  let expl_var : List ℚ :=
    (List.range n).map
      (fun i => pyRound1 (m.pca.explained_variance_ratio_.getD i 0 * 100))
  let cols : List String :=
    ((List.range n).map (fun i => "PC " ++ toString (i + 1))) ++
      ["Sample", "Label"]
  (m,
    if (m.dataset.samples.length = m.pc.length ∧
          m.dataset.labels.length = m.pc.length) ∧
        (1 ≤ PC_x ∧ PC_x ≤ (n : ℤ)) ∧ (1 ≤ PC_y ∧ PC_y ≤ (n : ℤ)) ∧
        hue ∈ cols ∧ style ∈ cols then
      some
        { xPC := PC_x
          yPC := PC_y
          xPercent := expl_var.getD (PC_x - 1).toNat 0
          yPercent := expl_var.getD (PC_y - 1).toNat 0
          hue := hue
          style := style
          pointLabels := if label then m.dataset.samples else []
          legend := true }
    else none)

/-- The data baked into the figure returned by `loadings_plot`: the reshaped
loading grid, the symmetric color range, the relabelled major ticks, the
minor-tick locators, the axis labels and the component number in the
title. -/
structure LoadingsChart where
  grid : List (List ℚ)
  vmin : ℚ
  vmax : ℚ
  originLower : Bool
  xtickPositions : List ℤ
  xtickLabels : List ℚ
  ytickPositions : List ℤ
  ytickLabels : List ℤ
  xMinor : Bool
  yMinor : Bool
  xlabel : String
  ylabel : String
  titlePC : ℤ
deriving DecidableEq

/-- The PC-independent part of `loadings_plot` once the row index `idx`
(`PC - 1` in the caller) is fixed: take the first spectrum's axes
(`IndexError` on an empty dataset), select row `idx` of the loadings with
numpy index semantics, reshape it to the axis lengths, and relabel the
auto-generated ticks `xlocs`/`ylocs` (dropping the first and last) with the
drift-time value rounded to one decimal and the retention-time value rounded
to an integer.  Any failing step makes the whole call fail. -/
def loadingsCore (m : PCA_Model) (idx : ℤ) (color_range : ℚ)
    (xlocs ylocs : List ℤ) : Option LoadingsChart := do
  let sp ← m.dataset.spectra.head?
  let row ← npGet m.loadings idx
  let grid ← reshape2 row sp.ret_time.length sp.drift_time.length
  let rt_ticks ←
    mapOpt (fun i => (npGet sp.ret_time i).map pyRound) (pySlice1m1 ylocs)
  let dt_ticks ←
    mapOpt (fun i => (npGet sp.drift_time i).map pyRound1) (pySlice1m1 xlocs)
  some
    { grid := grid
      vmin := -color_range
      vmax := color_range
      originLower := true
      xtickPositions := pySlice1m1 xlocs
      xtickLabels := dt_ticks
      ytickPositions := pySlice1m1 ylocs
      ytickLabels := rt_ticks
      xMinor := true
      yMinor := true
      xlabel := sp.drift_time_label
      ylabel := "Retention Time [s]"
      titlePC := 0 }

/-- `PCA_Model.loadings_plot(PC, color_range)`.  The auto-generated tick
locations `xlocs`, `ylocs` come from the plotting library and are inputs of
the model.  The selected row is `self.loadings[PC-1]`; the figure title
names the component `PC`.  The pair's first component is the state the
method leaves behind. -/
def loadings_plot (m : PCA_Model) (PC : ℤ) (color_range : ℚ)
    (xlocs ylocs : List ℤ) : PCA_Model × Option LoadingsChart :=
  (m,
    (loadingsCore m (PC - 1) color_range xlocs ylocs).map
      (fun c => { c with titlePC := PC }))

/-- The data baked into the figure returned by `scree_plot`: component
indices `1 .. n` on the x axis, the cumulative and the per-component
explained-variance percentage series, integer-only major tick locators and
the axis labels (the y-label typo is the source's). -/
structure ScreeChart where
  xs : List ℕ
  cumulative : List ℚ
  perPC : List ℚ
  integerTicks : Bool
  xlabel : String
  ylabel : String
  legend : Bool
deriving DecidableEq

/-- `PCA_Model.scree_plot(style)`: plots `np.cumsum(y) * 100` and `y * 100`
against `range(1, n_components_ + 1)`.  The pair's first component is the
state the method leaves behind. -/
def scree_plot (m : PCA_Model) (style : String) : PCA_Model × ScreeChart :=
  (m,
    { xs := (List.range m.pca.n_components_).map (fun i => i + 1)
      cumulative := (cumsum m.pca.explained_variance_ratio_).map (· * 100)
      perPC := m.pca.explained_variance_ratio_.map (· * 100)
      integerTicks := true
      xlabel := "Principal Component"
      ylabel := "Explainded variance ratio [%]"
      legend := true })

/-! Concrete instances used to evaluate the embedding on small inputs. -/

/-- A two-component fit on two features. -/
def wFit : PCAFit where
  n_features := 2
  components_ := [[1, 0], [0, 1]]
  explained_variance_ratio_ := [3/5, 1/5]
  mean_ := [0, 0]
  components_width := by intro c hc; fin_cases hc <;> rfl
  evr_length := rfl
  evr_nonneg := by intro r hr; fin_cases hr <;> norm_num
  evr_sum_le_one := by norm_num

/-- A two-sample dataset whose spectrum axes have 2 × 2 points (so the
two-feature loadings of `wFit` cannot be reshaped to them). -/
def wDataset : Dataset where
  name := "d"
  samples := ["a", "b"]
  labels := ["u", "v"]
  spectra := [⟨[0, 10], [1, 2], "Drift Time"⟩]

/-- Model fitted on `wDataset` with `scaling_method="auto"`. -/
def wM : PCA_Model := mkPCA_Model wDataset (some "auto") [[1, 2], [3, 4]] [1, 1] wFit

/-- The chart produced by `scatter_plot wM 1 2 "Label" "Label" false`. -/
def wChart : ScatterChart where
  xPC := 1
  yPC := 2
  xPercent := pyRound1 (3/5 * 100)
  yPercent := pyRound1 (1/5 * 100)
  hue := "Label"
  style := "Label"
  pointLabels := []
  legend := true

/-- A two-component fit on four features (reshapable to a 2 × 2 grid). -/
def wFit2 : PCAFit where
  n_features := 4
  components_ := [[1, 2, 3, 4], [5, 6, 7, 8]]
  explained_variance_ratio_ := [1/2, 1/4]
  mean_ := [0, 0, 0, 0]
  components_width := by intro c hc; fin_cases hc <;> rfl
  evr_length := rfl
  evr_nonneg := by intro r hr; fin_cases hr <;> norm_num
  evr_sum_le_one := by norm_num

/-- The single spectrum of `wDataset2`. -/
def wSp2 : Spectrum := ⟨[0, 10], [1, 2], "Drift"⟩

/-- A one-sample dataset with 2 retention-time and 2 drift-time points. -/
def wDataset2 : Dataset where
  name := "d2"
  samples := ["s"]
  labels := ["l"]
  spectra := [wSp2]

/-- Model fitted on `wDataset2` with `scaling_method="pareto"`. -/
def wM2 : PCA_Model :=
  mkPCA_Model wDataset2 (some "pareto") [[1, 2, 3, 4]] [1, 1, 1, 1] wFit2

/-- The chart produced by
`loadings_plot wM2 1 (1/10) [-1, 0, 1, 2] [-1, 0, 1, 2]`. -/
def wLChart : LoadingsChart where
  grid := [[1/1, 2/1], [3/1, 4/1]]
  vmin := -(1/10)
  vmax := 1/10
  originLower := true
  xtickPositions := [0, 1]
  xtickLabels := [pyRound1 1, pyRound1 2]
  ytickPositions := [0, 1]
  ytickLabels := [pyRound 0, pyRound 10]
  xMinor := true
  yMinor := true
  xlabel := "Drift"
  ylabel := "Retention Time [s]"
  titlePC := 1

/-- A three-component fit on fifty features. -/
def wFit6 : PCAFit where
  n_features := 50
  components_ := List.replicate 3 (List.replicate 50 (1 : ℚ))
  explained_variance_ratio_ := [1/2, 1/4, 1/8]
  mean_ := List.replicate 50 0
  components_width := by
    intro c hc
    rw [List.eq_of_mem_replicate hc, List.length_replicate]
  evr_length := by simp
  evr_nonneg := by intro r hr; fin_cases hr <;> norm_num
  evr_sum_le_one := by norm_num

/-- A ten-sample dataset for the 10 × 50 scenario. -/
def wD6 : Dataset where
  name := "d6"
  samples := List.replicate 10 "s"
  labels := List.replicate 10 "l"
  spectra := [⟨[0], [0], "dt"⟩]

/-- The 10 × 50 feature matrix of the scenario. -/
def wX6 : List (List ℚ) := List.replicate 10 (List.replicate 50 1)

end ims

namespace ims

/-- C1: at construction, the stored loadings equal the fitted component
vectors divided elementwise by the weight vector when the scaling method is
neither `None` nor `'standard'`; otherwise they equal the raw component
vectors unchanged. -/
theorem c1_loadings_descaling (d : Dataset) (sm : Option String)
    (X : List (List ℚ)) (w : List ℚ) (fit : PCAFit) :
    (sm ≠ none → sm ≠ some "standard" →
      (mkPCA_Model d sm X w fit).loadings =
        fit.components_.map (fun c => rowDiv c w)) ∧
    (sm = none ∨ sm = some "standard" →
      (mkPCA_Model d sm X w fit).loadings = fit.components_) := by
  constructor
  · intro h1 h2
    simp [mkPCA_Model, h1, h2]
  · intro h
    rcases h with h | h <;> simp [mkPCA_Model, h]

/-- `getD` on a list built by mapping over `range n`. -/
lemma getD_map_range (f : ℕ → ℚ) (n j : ℕ) (hj : j < n) :
    ((List.range n).map f).getD j 0 = f j := by
  simp [List.getD, List.getElem?_map, List.getElem?_range, hj]

/-- C7: every plot method returns the model unchanged as its state
component: the three renderers are pure reads of the state computed at
construction. -/
theorem c7_plots_pure (m : PCA_Model) (PC_x PC_y : ℤ) (hue style : String)
    (lb : Bool) (PC : ℤ) (cr : ℚ) (xlocs ylocs : List ℤ) (st : String) :
    (scatter_plot m PC_x PC_y hue style lb).1 = m ∧
    (loadings_plot m PC cr xlocs ylocs).1 = m ∧
    (scree_plot m st).1 = m :=
  ⟨rfl, rfl, rfl⟩

/-- C8: after construction, every per-component explained-variance ratio is
non-negative and the ratios sum to at most 1 (the contract of the delegated
PCA routine, preserved unchanged by the wrapper). -/
theorem c8_evr_invariant (d : Dataset) (sm : Option String)
    (X : List (List ℚ)) (w : List ℚ) (fit : PCAFit) :
    (∀ r ∈ (mkPCA_Model d sm X w fit).pca.explained_variance_ratio_, 0 ≤ r) ∧
    (mkPCA_Model d sm X w fit).pca.explained_variance_ratio_.sum ≤ 1 :=
  ⟨fit.evr_nonneg, fit.evr_sum_le_one⟩

/-- C4: whenever `scatter_plot` renders a chart, the percentage interpolated
into the axis label of each plotted component `PC` is
`round(explained_variance_ratio_[PC - 1] * 100, 1)`. -/
theorem c4_axis_percent (m : PCA_Model) (PC_x PC_y : ℤ) (hue style : String)
    (lb : Bool) (ch : ScatterChart)
    (h : (scatter_plot m PC_x PC_y hue style lb).2 = some ch) :
    ch.xPercent =
      pyRound1
        (m.pca.explained_variance_ratio_.getD (PC_x - 1).toNat 0 * 100) ∧
    ch.yPercent =
      pyRound1
        (m.pca.explained_variance_ratio_.getD (PC_y - 1).toNat 0 * 100) := by
  simp only [scatter_plot] at h
  split at h
  case isFalse => exact absurd h (by simp)
  case isTrue hc =>
    obtain ⟨-, ⟨hx1, hx2⟩, ⟨hy1, hy2⟩, -, -⟩ := hc
    have hxlt : (PC_x - 1).toNat < m.pca.n_components_ := by omega
    have hylt : (PC_y - 1).toNat < m.pca.n_components_ := by omega
    obtain rfl : _ = ch := Option.some_injective _ h
    exact ⟨getD_map_range _ _ _ hxlt, getD_map_range _ _ _ hylt⟩

/-- C4 witness: on the concrete model `wM`, the chart of
`scatter_plot wM 1 2` carries the rounded percentages of components 1
and 2. -/
theorem c4_axis_percent_witness :
    wChart.xPercent =
      pyRound1
        (wM.pca.explained_variance_ratio_.getD ((1 : ℤ) - 1).toNat 0 * 100) ∧
    wChart.yPercent =
      pyRound1
        (wM.pca.explained_variance_ratio_.getD ((2 : ℤ) - 1).toNat 0 * 100) :=
  c4_axis_percent wM 1 2 "Label" "Label" false wChart rfl

/-- `npGet` fails exactly outside numpy's accepted index range. -/
lemma npGet_none_of_out {α : Type} (l : List α) (i : ℤ)
    (h : (l.length : ℤ) ≤ i ∨ i < -(l.length : ℤ)) : npGet l i = none := by
  unfold npGet pyIdx
  rw [if_neg (by omega), if_neg (by omega)]
  rfl

/-- When the loadings row selection fails, the whole `loadings_plot` call
fails. -/
lemma loadingsCore_none_of_npGet_none (m : PCA_Model) (idx : ℤ) (cr : ℚ)
    (xl yl : List ℤ) (h : npGet m.loadings idx = none) :
    loadingsCore m idx cr xl yl = none := by
  unfold loadingsCore
  cases hsp : m.dataset.spectra.head? <;> simp [hsp, h]

/-- C2 counterexample: on the concrete two-component model `wM2`, the call
`loadings_plot(PC=0)` — an index outside `[1, n_components]` — raises no
error: it renders a chart. -/
theorem c2_counterexample_pc_zero :
    (loadings_plot wM2 0 (1/10) [-1, 0, 1, 2] [-1, 0, 1, 2]).2.isSome = true ∧
    wM2.pca.n_components_ = 2 :=
  ⟨rfl, rfl⟩

/-- C2 amended: `scatter_plot` fails for any `PC_x` or `PC_y` outside
`[1, n_components]` (the dataframe has no such component column), while
`loadings_plot` fails only when `PC - 1` falls outside numpy's accepted
index range, i.e. when `PC > n` or `PC < 1 - n`; indices in `[1 - n, 0]`
select a component counted from the end without error. -/
theorem c2_amended_index_errors (m : PCA_Model) (PC_x PC_y PC : ℤ)
    (hue style : String) (lb : Bool) (cr : ℚ) (xl yl : List ℤ) :
    (¬(1 ≤ PC_x ∧ PC_x ≤ (m.pca.n_components_ : ℤ)) →
      (scatter_plot m PC_x PC_y hue style lb).2 = none) ∧
    (¬(1 ≤ PC_y ∧ PC_y ≤ (m.pca.n_components_ : ℤ)) →
      (scatter_plot m PC_x PC_y hue style lb).2 = none) ∧
    ((m.loadings.length : ℤ) < PC ∨ PC < 1 - (m.loadings.length : ℤ) →
      (loadings_plot m PC cr xl yl).2 = none) := by
  refine ⟨?_, ?_, ?_⟩
  · intro hx
    simp only [scatter_plot]
    split
    case isTrue hc => exact absurd hc (by tauto)
    case isFalse => rfl
  · intro hy
    simp only [scatter_plot]
    split
    case isTrue hc => exact absurd hc (by tauto)
    case isFalse => rfl
  · intro hPC
    have hnone : npGet m.loadings (PC - 1) = none :=
      npGet_none_of_out m.loadings (PC - 1) (by omega)
    simp [loadings_plot, loadingsCore_none_of_npGet_none m (PC - 1) cr xl yl hnone]

/-- C2 amended witness: concrete out-of-range calls all fail. -/
theorem c2_amended_index_errors_witness :
    (scatter_plot wM 0 2 "Label" "Label" false).2 = none ∧
    (scatter_plot wM 1 3 "Label" "Label" false).2 = none ∧
    (loadings_plot wM2 3 (1/10) [-1, 0, 1, 2] [-1, 0, 1, 2]).2 = none :=
  ⟨(c2_amended_index_errors wM 0 2 0 "Label" "Label" false 0 [] []).1
      (by decide),
   (c2_amended_index_errors wM 1 3 0 "Label" "Label" false 0 [] []).2.1
      (by decide),
   (c2_amended_index_errors wM2 0 0 3 "Label" "Label" false (1/10)
      [-1, 0, 1, 2] [-1, 0, 1, 2]).2.2 (by decide)⟩

/-- C3: for a model whose first spectrum and selected loadings row exist,
`loadings_plot` renders only if the row length equals
retention-time count × drift-time count, and fails whenever the lengths
mismatch. -/
theorem c3_reshape_invariant (m : PCA_Model) (PC : ℤ) (cr : ℚ)
    (xlocs ylocs : List ℤ) (sp : Spectrum) (row : List ℚ)
    (hsp : m.dataset.spectra.head? = some sp)
    (hrow : npGet m.loadings (PC - 1) = some row) :
    ((loadings_plot m PC cr xlocs ylocs).2.isSome →
      row.length = sp.ret_time.length * sp.drift_time.length) ∧
    (row.length ≠ sp.ret_time.length * sp.drift_time.length →
      (loadings_plot m PC cr xlocs ylocs).2 = none) := by
  constructor
  · intro h
    by_contra hne
    simp only [loadings_plot, loadingsCore, hsp, hrow] at h
    simp [reshape2, hne] at h
  · intro hne
    simp only [loadings_plot, loadingsCore, hsp, hrow]
    simp [reshape2, hne]

/-- C3 witness: on `wM` the two-feature loading row cannot be reshaped to
the 2 × 2 spectrum grid, so the call fails. -/
theorem c3_reshape_invariant_witness :
    (loadings_plot wM 1 (1/10) [-1, 0, 1, 2] [-1, 0, 1, 2]).2 = none :=
  (c3_reshape_invariant wM 1 (1/10) [-1, 0, 1, 2] [-1, 0, 1, 2]
      ⟨[0, 10], [1, 2], "Drift Time"⟩ (rowDiv [1, 0] [1, 1]) rfl rfl).2
    (by decide)

/-- Negative index `-1` resolves to the same element as the last valid
nonnegative index. -/
lemma pyIdx_neg_one (n : ℕ) (h : n ≠ 0) :
    pyIdx n (-1) = pyIdx n ((n : ℤ) - 1) := by
  unfold pyIdx
  rw [if_neg (by omega), if_pos (by omega), if_pos (by omega)]
  congr 1
  omega

/-- `npGet` at `-1` equals `npGet` at `length - 1` on a nonempty list. -/
lemma npGet_neg_one {α : Type} (l : List α) (h : l ≠ []) :
    npGet l (-1) = npGet l ((l.length : ℤ) - 1) := by
  unfold npGet
  rw [pyIdx_neg_one l.length (fun hl => h (List.length_eq_zero.mp hl))]

/-- C10: `loadings_plot` with `PC = 0` raises no error whenever the call
for the last fitted component `PC = n` raises none, and renders the same
loading grid: the row selection `loadings[PC-1]` resolves index `-1` to the
last component. -/
theorem c10_pc_zero_last_component (m : PCA_Model) (cr : ℚ)
    (xl yl : List ℤ) (hn : m.loadings ≠ []) :
    (loadings_plot m 0 cr xl yl).2.isSome =
      (loadings_plot m (m.loadings.length : ℤ) cr xl yl).2.isSome ∧
    (loadings_plot m 0 cr xl yl).2.map LoadingsChart.grid =
      (loadings_plot m (m.loadings.length : ℤ) cr xl yl).2.map
        LoadingsChart.grid := by
  have e : loadingsCore m ((0 : ℤ) - 1) cr xl yl =
      loadingsCore m ((m.loadings.length : ℤ) - 1) cr xl yl := by
    unfold loadingsCore
    rw [show ((0 : ℤ) - 1) = (-1 : ℤ) by ring, npGet_neg_one m.loadings hn]
  simp only [loadings_plot]
  rw [e]
  cases loadingsCore m ((m.loadings.length : ℤ) - 1) cr xl yl <;> simp

/-- C10 witness: on the concrete model `wM2` (two components),
`loadings_plot(PC=0)` succeeds exactly like `PC=2` and draws the same
grid. -/
theorem c10_pc_zero_last_component_witness :
    (loadings_plot wM2 0 (1/10) [-1, 0, 1, 2] [-1, 0, 1, 2]).2.isSome =
      (loadings_plot wM2 (wM2.loadings.length : ℤ) (1/10) [-1, 0, 1, 2]
        [-1, 0, 1, 2]).2.isSome ∧
    (loadings_plot wM2 0 (1/10) [-1, 0, 1, 2] [-1, 0, 1, 2]).2.map
        LoadingsChart.grid =
      (loadings_plot wM2 (wM2.loadings.length : ℤ) (1/10) [-1, 0, 1, 2]
        [-1, 0, 1, 2]).2.map LoadingsChart.grid :=
  c10_pc_zero_last_component wM2 (1/10) [-1, 0, 1, 2] [-1, 0, 1, 2]
    (List.length_pos.mp (by decide))

/-- C9: whenever `loadings_plot` renders a chart, the surviving major ticks
are the auto-generated ones with the first and last dropped; each remaining
y tick at position `i` is relabelled with `round(ret_time[i])`, each
remaining x tick at position `j` with `round(drift_time[j], 1)`, and minor
locators are installed on both axes. -/
theorem c9_tick_relabelling (m : PCA_Model) (PC : ℤ) (cr : ℚ)
    (xl yl : List ℤ) (sp : Spectrum) (ch : LoadingsChart)
    (hsp : m.dataset.spectra.head? = some sp)
    (h : (loadings_plot m PC cr xl yl).2 = some ch) :
    ch.ytickPositions = pySlice1m1 yl ∧ ch.xtickPositions = pySlice1m1 xl ∧
    mapOpt (fun i => (npGet sp.ret_time i).map pyRound) (pySlice1m1 yl) =
      some ch.ytickLabels ∧
    mapOpt (fun i => (npGet sp.drift_time i).map pyRound1) (pySlice1m1 xl) =
      some ch.xtickLabels ∧
    ch.yMinor = true ∧ ch.xMinor = true := by
  simp only [loadings_plot, loadingsCore, hsp, Option.bind_eq_bind',
    Option.some_bind'] at h
  rcases hrow : npGet m.loadings (PC - 1) with _ | row <;>
    rw [hrow] at h <;>
    simp only [Option.none_bind', Option.some_bind'] at h
  · simp at h
  rcases hg : reshape2 row sp.ret_time.length sp.drift_time.length
      with _ | grid <;>
    rw [hg] at h <;>
    simp only [Option.none_bind', Option.some_bind'] at h
  · simp at h
  rcases hrt : mapOpt (fun i => (npGet sp.ret_time i).map pyRound)
      (pySlice1m1 yl) with _ | rt <;>
    rw [hrt] at h <;>
    simp only [Option.none_bind', Option.some_bind'] at h
  · simp at h
  rcases hdt : mapOpt (fun i => (npGet sp.drift_time i).map pyRound1)
      (pySlice1m1 xl) with _ | dt <;>
    rw [hdt] at h <;>
    simp only [Option.none_bind', Option.some_bind'] at h
  · simp at h
  simp only [Option.map_some'] at h
  obtain rfl := Option.some_injective _ h
  exact ⟨rfl, rfl, rfl, rfl, rfl, rfl⟩

/-- C9 witness: the concrete call `loadings_plot wM2 1` relabels the
surviving ticks `[0, 1]` with the rounded axis values. -/
theorem c9_tick_relabelling_witness :
    wLChart.ytickPositions = pySlice1m1 [-1, 0, 1, 2] ∧
    wLChart.xtickPositions = pySlice1m1 [-1, 0, 1, 2] ∧
    mapOpt (fun i => (npGet wSp2.ret_time i).map pyRound)
        (pySlice1m1 [-1, 0, 1, 2]) = some wLChart.ytickLabels ∧
    mapOpt (fun i => (npGet wSp2.drift_time i).map pyRound1)
        (pySlice1m1 [-1, 0, 1, 2]) = some wLChart.xtickLabels ∧
    wLChart.yMinor = true ∧ wLChart.xMinor = true :=
  c9_tick_relabelling wM2 1 (1/10) [-1, 0, 1, 2] [-1, 0, 1, 2] wSp2 wLChart
    rfl rfl

/-- Every running sum of a list of non-negative rationals is
non-negative. -/
lemma cumsum_mem_nonneg (l : List ℚ) (h : ∀ x ∈ l, 0 ≤ x) :
    ∀ y ∈ cumsum l, 0 ≤ y := by
  induction l with
  | nil => simp [cumsum]
  | cons x xs ih =>
    intro y hy
    simp only [cumsum, List.mem_cons, List.mem_map] at hy
    have hx := h x (List.mem_cons_self x xs)
    rcases hy with rfl | ⟨z, hz, rfl⟩
    · exact hx
    · have hz' := ih (fun a ha => h a (List.mem_cons_of_mem _ ha)) z hz
      linarith

/-- The running sums of a list of non-negative rationals are
non-decreasing. -/
lemma cumsum_chain (l : List ℚ) (h : ∀ x ∈ l, 0 ≤ x) :
    List.Chain' (· ≤ ·) (cumsum l) := by
  induction l with
  | nil => simp [cumsum]
  | cons x xs ih =>
    have hxs : ∀ a ∈ xs, (0 : ℚ) ≤ a :=
      fun a ha => h a (List.mem_cons_of_mem _ ha)
    simp only [cumsum]
    rw [List.chain'_cons']
    refine ⟨?_, List.chain'_map_of_chain' _ (fun a b hab => by linarith)
      (ih hxs)⟩
    intro b hb
    cases hc : cumsum xs with
    | nil => rw [hc] at hb; simp at hb
    | cons c cs =>
      rw [hc] at hb
      simp only [List.map_cons, List.head?_cons, Option.mem_def,
        Option.some_inj] at hb
      subst hb
      have hcn : (0 : ℚ) ≤ c :=
        cumsum_mem_nonneg xs hxs c (by rw [hc]; exact List.mem_cons_self _ _)
      linarith

/-- The last running sum is the total sum. -/
lemma cumsum_getLast? (l : List ℚ) (h : l ≠ []) :
    (cumsum l).getLast? = some l.sum := by
  induction l with
  | nil => exact absurd rfl h
  | cons x xs ih =>
    rcases eq_or_ne xs [] with rfl | hne
    · simp [cumsum]
    · simp only [cumsum, List.getLast?_cons, List.getLast?_map, ih hne]
      simp

/-- C5: the cumulative series plotted by `scree_plot` is non-decreasing,
and (for a model with at least one component) its final value is
100 × the sum of all per-component explained-variance ratios. -/
theorem c5_scree_cumulative (m : PCA_Model) (st : String) :
    List.Chain' (· ≤ ·) ((scree_plot m st).2.cumulative) ∧
    (m.pca.explained_variance_ratio_ ≠ [] →
      ((scree_plot m st).2.cumulative).getLast? =
        some (m.pca.explained_variance_ratio_.sum * 100)) := by
  constructor
  · exact List.chain'_map_of_chain' (· * 100)
      (fun a b hab => mul_le_mul_of_nonneg_right hab (by norm_num))
      (cumsum_chain _ m.pca.evr_nonneg)
  · intro hne
    simp only [scree_plot, List.getLast?_map, cumsum_getLast? _ hne,
      Option.map_some']

/-- C5 witness: on `wM` the cumulative series is non-decreasing and ends
at 100 × the total ratio. -/
theorem c5_scree_cumulative_witness :
    List.Chain' (· ≤ ·) ((scree_plot wM "seaborn").2.cumulative) ∧
    ((scree_plot wM "seaborn").2.cumulative).getLast? =
      some (wM.pca.explained_variance_ratio_.sum * 100) :=
  ⟨(c5_scree_cumulative wM "seaborn").1,
   (c5_scree_cumulative wM "seaborn").2 (by decide)⟩

/-- C6: for a 10 × 50 feature matrix, scaling `"auto"` and a fit with three
components, the model has `n_components_ = 3`, a score matrix of shape
(10, 3) and a loadings matrix of shape (3, 50). -/
theorem c6_shapes (d : Dataset) (X : List (List ℚ)) (w : List ℚ)
    (fit : PCAFit) (h1 : fit.n_components_ = 3) (h2 : fit.n_features = 50)
    (h3 : X.length = 10) (h4 : w.length = 50) :
    (mkPCA_Model d (some "auto") X w fit).pca.n_components_ = 3 ∧
    (mkPCA_Model d (some "auto") X w fit).pc.length = 10 ∧
    (∀ r ∈ (mkPCA_Model d (some "auto") X w fit).pc, r.length = 3) ∧
    (mkPCA_Model d (some "auto") X w fit).loadings.length = 3 ∧
    (∀ r ∈ (mkPCA_Model d (some "auto") X w fit).loadings,
      r.length = 50) := by
  have hcond : (some "auto" : Option String) ≠ none ∧
      (some "auto" : Option String) ≠ some "standard" := by simp
  refine ⟨h1, ?_, ?_, ?_, ?_⟩
  · simp [mkPCA_Model, PCAFit.transform, h3]
  · intro r hr
    simp only [mkPCA_Model, PCAFit.transform, List.mem_map] at hr
    obtain ⟨row, -, rfl⟩ := hr
    simpa [PCAFit.n_components_] using h1
  · simp only [mkPCA_Model]
    rw [if_pos hcond]
    simpa [PCAFit.n_components_] using h1
  · intro r hr
    simp only [mkPCA_Model] at hr
    rw [if_pos hcond] at hr
    simp only [List.mem_map] at hr
    obtain ⟨c, hc, rfl⟩ := hr
    have hcw := fit.components_width c hc
    simp [rowDiv, List.length_zipWith, hcw, h2, h4]

/-- C6 witness: the scenario evaluated on a concrete 10 × 50 matrix with a
concrete three-component fit. -/
theorem c6_shapes_witness :
    (mkPCA_Model wD6 (some "auto") wX6 (List.replicate 50 1)
      wFit6).pca.n_components_ = 3 ∧
    (mkPCA_Model wD6 (some "auto") wX6 (List.replicate 50 1)
      wFit6).pc.length = 10 ∧
    (∀ r ∈ (mkPCA_Model wD6 (some "auto") wX6 (List.replicate 50 1)
      wFit6).pc, r.length = 3) ∧
    (mkPCA_Model wD6 (some "auto") wX6 (List.replicate 50 1)
      wFit6).loadings.length = 3 ∧
    (∀ r ∈ (mkPCA_Model wD6 (some "auto") wX6 (List.replicate 50 1)
      wFit6).loadings, r.length = 50) :=
  c6_shapes wD6 wX6 (List.replicate 50 1) wFit6
    (by simp [wFit6, PCAFit.n_components_]) rfl (by simp [wX6]) (by simp)

/-- C1 witness: concrete constructions in the descaling branch
(`scaling_method="auto"`) and in the raw branch (`scaling_method=None`). -/
theorem c1_loadings_descaling_witness :
    (mkPCA_Model wDataset (some "auto") [[1, 2], [3, 4]] [1, 1]
      wFit).loadings = wFit.components_.map (fun c => rowDiv c [1, 1]) ∧
    (mkPCA_Model wDataset none [[1, 2], [3, 4]] [1, 1]
      wFit).loadings = wFit.components_ :=
  ⟨(c1_loadings_descaling wDataset (some "auto") [[1, 2], [3, 4]] [1, 1]
      wFit).1 (by decide) (by decide),
   (c1_loadings_descaling wDataset none [[1, 2], [3, 4]] [1, 1]
      wFit).2 (Or.inl rfl)⟩

end ims
